import Mathlib

/-!
Verification of the Hospital-Management-System backend core.

This file gives a shallow embedding, in Lean 4, of the appointment
conflict-resolution algorithm, the appointment update path, the
refresh-token lifecycle, and the field-level encryption boundary of the
`backend/app` package (`crud.py`, `routers.py`, `encryption.py`,
`models.py`), and proves the specification claims about them.

Modelling conventions:
* Python `datetime` values are modelled as integer minutes since an epoch
  that falls on a Monday 00:00, so that Python's `weekday()` is
  `(t / 1440) % 7` (floor division, Euclidean remainder, Monday = 0) and
  `strftime "%H:%M"` is the zero-padded rendering of `t % 1440`.
* Python strings are Lean `String`s; the `<`/`<=` comparisons that
  `crud._validate_appointment_slot` performs on `"HH:MM"` strings are
  modelled by an executable lexicographic comparison over the code points,
  exactly Python's string ordering.
* The SQLAlchemy session is modelled as an explicit record of lists; a
  query returning the first row (`db.scalar`) is `List.find?`, a filtered
  scan is `List.filter`, and a commit of a mutated row replaces the row
  with the same primary key.
* `bytes` values are lists of naturals (each `< 256` where it matters).
-/

namespace HMS

/-! ### Python string comparison (code-point lexicographic order) -/

/-- Python's `<` on strings: lexicographic comparison of code points. -/
def strLtChars : List Char → List Char → Bool
  | [], [] => false
  | [], _ :: _ => true
  | _ :: _, [] => false
  | a :: as, b :: bs => if a < b then true else if b < a then false else strLtChars as bs

/-- Python's `s < t` for `str` operands. -/
def pyStrLt (s t : String) : Bool := strLtChars s.data t.data

/-- Python's `s <= t` for `str` operands (total order, so `s <= t ↔ ¬ t < s`). -/
def pyStrLe (s t : String) : Bool := !(pyStrLt t s)

/-! ### Data model (`models.py`) -/

/-- `models.AppointmentStatus`. -/
inductive AppointmentStatus
  | pending
  | approved
  | rejected
  | cancelled
deriving DecidableEq, Repr

/-- `models.AppointmentStatus(value)`: the enum constructor on the `.value`
strings; `none` models the `ValueError` Python raises on any other string. -/
def statusOfString (s : String) : Option AppointmentStatus :=
  if s = "pending" then some .pending
  else if s = "approved" then some .approved
  else if s = "rejected" then some .rejected
  else if s = "cancelled" then some .cancelled
  else none

/-- `models.DoctorAvailability` (times stored as raw `"HH:MM"` strings). -/
structure DoctorAvailability where
  id : Int
  doctor_id : Int
  day_of_week : Int
  start_time : String
  end_time : String
deriving DecidableEq, Repr

/-- `models.Appointment` (`scheduled_time` in minutes since the epoch). -/
structure Appointment where
  id : Int
  patient_id : Int
  doctor_id : Int
  hospital_id : Option Int
  scheduled_time : Int
  status : AppointmentStatus
  notes : Option String
deriving DecidableEq, Repr

/-- `models.RefreshToken` (`expires_at` in minutes since the epoch). -/
structure RefreshToken where
  user_id : Int
  jti : String
  expires_at : Int
  revoked : Bool
deriving DecidableEq, Repr

/-- The rows of the database tables the verified operations touch. -/
structure DB where
  availabilities : List DoctorAvailability
  appointments : List Appointment
deriving DecidableEq, Repr

/-! ### Clock arithmetic on modelled datetimes -/

/-- Python `scheduled_time.weekday()`: day index with Monday = 0 (Lean's `/`
and `%` on `Int` are floor division and the nonnegative remainder, exactly
Python's `//` and `%`). -/
def weekday (t : Int) : Int := (t / 1440) % 7

/-- The minute of the day of a modelled datetime, in `[0, 1440)`. -/
def minuteOfDay (t : Int) : Nat := (t % 1440).toNat

/-- The two-digit zero-padded decimal rendering of `n < 100`. -/
def pad2 (n : Nat) : List Char := [Nat.digitChar (n / 10), Nat.digitChar (n % 10)]

/-- The characters of the `"HH:MM"` rendering. -/
def hhmmChars (h m : Nat) : List Char := pad2 h ++ ':' :: pad2 m

/-- The `"HH:MM"` string with hour `h` and minute `m`. -/
def hhmm (h m : Nat) : String := String.mk (hhmmChars h m)

/-- Python `scheduled_time.strftime("%H:%M")`. -/
def timeStrOf (t : Int) : String := hhmm (minuteOfDay t / 60) (minuteOfDay t % 60)

/-! ### The Conflict Detector (`crud._validate_appointment_slot`) -/

/-- The typed rejection reasons of the Conflict Detector: the three
`ValueError`s `_validate_appointment_slot` can raise, in the spec's naming. -/
inductive SlotError
  | doctorUnavailable
  | doctorSlotConflict
  | patientSlotConflict
deriving DecidableEq, Repr

/-- The predicate of the availability scan: `a.start_time <= time_str < a.end_time`
(Python chained string comparison). -/
def availabilityMatches (a : DoctorAvailability) (time_str : String) : Bool :=
  pyStrLe a.start_time time_str && pyStrLt time_str a.end_time

/-- The `WHERE` clause of both conflict scans, including the
`if exclude_id:` truthiness guard on the additional `id != exclude_id` filter. -/
def conflictFilter (key : Int) (keyOf : Appointment → Int) (window_start window_end : Int)
    (exclude_id : Option Int) (ap : Appointment) : Bool :=
  keyOf ap == key && decide (window_start ≤ ap.scheduled_time) &&
    decide (ap.scheduled_time ≤ window_end) &&
    (match exclude_id with
     | some e => if e ≠ 0 then decide (ap.id ≠ e) else true
     | none => true)

/-- `crud._validate_appointment_slot`: availability check, then doctor-slot
scan, then patient-slot scan; `some err` models the raised `ValueError`. -/
def validate_appointment_slot (db : DB) (doctor_id patient_id : Int)
    (scheduled_time : Int) (exclude_id : Option Int) : Option SlotError :=
  let day := weekday scheduled_time
  let time_str := timeStrOf scheduled_time
  let avail_list := db.availabilities.filter
    (fun a => a.doctor_id == doctor_id && a.day_of_week == day)
  if !(avail_list.any (fun a => availabilityMatches a time_str)) then
    some .doctorUnavailable
  else
    let window_start := scheduled_time - 29
    let window_end := scheduled_time + 29
    if db.appointments.filter
        (conflictFilter doctor_id (·.doctor_id) window_start window_end exclude_id) ≠ [] then
      some .doctorSlotConflict
    else if db.appointments.filter
        (conflictFilter patient_id (·.patient_id) window_start window_end exclude_id) ≠ [] then
      some .patientSlotConflict
    else
      none

/-! ### Lemmas about the conflict scans -/

/-- When the supplied `exclude_id` is never the falsy `0` (appointment ids are
positive), the scan's `WHERE` clause holds exactly on the appointments of the
scanned key inside the closed window, other than the excluded one. -/
theorem conflictFilter_eq_true {key ws we : Int} {keyOf : Appointment → Int}
    {ex : Option Int} (hex : ∀ e, ex = some e → e ≠ 0) (ap : Appointment) :
    conflictFilter key keyOf ws we ex ap = true ↔
      (keyOf ap = key ∧ ws ≤ ap.scheduled_time ∧ ap.scheduled_time ≤ we ∧
        ex ≠ some ap.id) := by
  cases ex with
  | none => simp [conflictFilter, and_assoc]
  | some e =>
    have he : e ≠ 0 := hex e rfl
    simp [conflictFilter, he, and_assoc]
    intro _ _ _
    exact ⟨fun h h2 => h h2.symm, fun h h2 => h h2.symm⟩

/-- A filtered scan returns a row exactly when some row satisfies the clause. -/
theorem filter_ne_nil_iff_exists {α : Type} (p : α → Bool) (l : List α) :
    (l.filter p ≠ []) ↔ ∃ a ∈ l, p a = true := by
  rw [Ne, List.filter_eq_nil_iff]
  push_neg
  simp

/-- The doctor-slot scan of `_validate_appointment_slot` finds a conflict
exactly when the doctor has an appointment (of any status) in the closed
window, other than the excluded one. -/
theorem doctor_scan_iff (db : DB) (D T : Int) (ex : Option Int)
    (hex : ∀ e, ex = some e → e ≠ 0) :
    (db.appointments.filter
        (conflictFilter D (·.doctor_id) (T - 29) (T + 29) ex) ≠ []) ↔
      ∃ ap ∈ db.appointments, ap.doctor_id = D ∧
        T - 29 ≤ ap.scheduled_time ∧ ap.scheduled_time ≤ T + 29 ∧
        ex ≠ some ap.id := by
  rw [filter_ne_nil_iff_exists]
  constructor
  · rintro ⟨ap, hap, hp⟩
    exact ⟨ap, hap, (conflictFilter_eq_true hex ap).mp hp⟩
  · rintro ⟨ap, hap, hp⟩
    exact ⟨ap, hap, (conflictFilter_eq_true hex ap).mpr hp⟩

/-- The patient-slot scan, symmetrically. -/
theorem patient_scan_iff (db : DB) (P T : Int) (ex : Option Int)
    (hex : ∀ e, ex = some e → e ≠ 0) :
    (db.appointments.filter
        (conflictFilter P (·.patient_id) (T - 29) (T + 29) ex) ≠ []) ↔
      ∃ ap ∈ db.appointments, ap.patient_id = P ∧
        T - 29 ≤ ap.scheduled_time ∧ ap.scheduled_time ≤ T + 29 ∧
        ex ≠ some ap.id := by
  rw [filter_ne_nil_iff_exists]
  constructor
  · rintro ⟨ap, hap, hp⟩
    exact ⟨ap, hap, (conflictFilter_eq_true hex ap).mp hp⟩
  · rintro ⟨ap, hap, hp⟩
    exact ⟨ap, hap, (conflictFilter_eq_true hex ap).mpr hp⟩

/-- C1. For a booking request at time `T` for doctor `D` that passes the
availability check, the validator rejects with `doctor_slot_conflict` iff the
doctor has an appointment — of any status, and other than the excluded id when
one is supplied — whose scheduled time lies in the closed interval
`[T - 29, T + 29]` minutes; the `patient_slot_conflict` rejection can only
occur when the doctor scan found nothing; and when neither scan finds a row in
the window (so in particular when every other appointment is 30 or more
minutes away) the validator accepts. -/
theorem C1_doctor_slot_window (db : DB) (D P T : Int) (ex : Option Int)
    (hex : ∀ e, ex = some e → e ≠ 0)
    (havail : (db.availabilities.filter
        (fun a => a.doctor_id == D && a.day_of_week == weekday T)).any
        (fun a => availabilityMatches a (timeStrOf T)) = true) :
    (validate_appointment_slot db D P T ex = some .doctorSlotConflict ↔
      ∃ ap ∈ db.appointments, ap.doctor_id = D ∧
        T - 29 ≤ ap.scheduled_time ∧ ap.scheduled_time ≤ T + 29 ∧
        ex ≠ some ap.id)
    ∧ (validate_appointment_slot db D P T ex = some .patientSlotConflict →
      ¬ ∃ ap ∈ db.appointments, ap.doctor_id = D ∧
        T - 29 ≤ ap.scheduled_time ∧ ap.scheduled_time ≤ T + 29 ∧
        ex ≠ some ap.id)
    ∧ ((¬ ∃ ap ∈ db.appointments, ap.doctor_id = D ∧
          T - 29 ≤ ap.scheduled_time ∧ ap.scheduled_time ≤ T + 29 ∧
          ex ≠ some ap.id) →
       (¬ ∃ ap ∈ db.appointments, ap.patient_id = P ∧
          T - 29 ≤ ap.scheduled_time ∧ ap.scheduled_time ≤ T + 29 ∧
          ex ≠ some ap.id) →
       validate_appointment_slot db D P T ex = none) := by
  by_cases hdc : db.appointments.filter
      (conflictFilter D (·.doctor_id) (T - 29) (T + 29) ex) = []
  · by_cases hpc : db.appointments.filter
        (conflictFilter P (·.patient_id) (T - 29) (T + 29) ex) = []
    · have hval : validate_appointment_slot db D P T ex = none := by
        simp [validate_appointment_slot, havail, hdc, hpc]
      refine ⟨?_, ?_, ?_⟩
      · rw [hval]
        simp only [false_iff, reduceCtorEq]
        exact fun h => ((doctor_scan_iff db D T ex hex).mpr h) hdc
      · intro h
        rw [hval] at h
        exact absurd h (by simp)
      · intro _ _
        exact hval
    · have hval : validate_appointment_slot db D P T ex =
          some .patientSlotConflict := by
        simp [validate_appointment_slot, havail, hdc, hpc]
      refine ⟨?_, ?_, ?_⟩
      · rw [hval]
        simp only [Option.some.injEq, false_iff, reduceCtorEq]
        exact fun h => ((doctor_scan_iff db D T ex hex).mpr h) hdc
      · intro _ h
        exact ((doctor_scan_iff db D T ex hex).mpr h) hdc
      · intro _ hnp
        exact absurd ((patient_scan_iff db P T ex hex).mp hpc) hnp
  · have hval : validate_appointment_slot db D P T ex =
        some .doctorSlotConflict := by
      simp [validate_appointment_slot, havail, hdc]
    refine ⟨?_, ?_, ?_⟩
    · rw [hval]
      simp only [true_iff]
      exact (doctor_scan_iff db D T ex hex).mp hdc
    · intro h
      rw [hval] at h
      exact absurd h (by simp)
    · intro hnd _
      exact absurd ((doctor_scan_iff db D T ex hex).mp hdc) hnd

/-- Example availability row: doctor 1 works Mondays 09:00–17:00. -/
def c1Avail : DoctorAvailability := ⟨1, 1, 0, "09:00", "17:00"⟩

/-- Example appointment: id 1, doctor 1, patient 1, Monday 09:30, cancelled. -/
def c1Appt : Appointment := ⟨1, 1, 1, none, 570, .cancelled, none⟩

/-- Example database for the conflict-window scenarios. -/
def c1DB : DB := ⟨[c1Avail], [c1Appt]⟩

/-- Witness for C1: with a cancelled appointment at Monday 09:30, a booking at
09:45 (15 minutes away) is rejected with `doctor_slot_conflict`, while a
booking at 10:00 (exactly 30 minutes away) passes the whole validator. -/
theorem C1_doctor_slot_window_witness :
    validate_appointment_slot c1DB 1 1 585 none = some .doctorSlotConflict ∧
    validate_appointment_slot c1DB 1 1 600 none = none := by
  have hex : ∀ e : Int, (none : Option Int) = some e → e ≠ 0 := fun e h => by cases h
  exact ⟨(C1_doctor_slot_window c1DB 1 1 585 none hex (by decide)).1.mpr
      ⟨c1Appt, by decide, by decide, by decide, by decide, by decide⟩,
    (C1_doctor_slot_window c1DB 1 1 600 none hex (by decide)).2.2
      (by decide) (by decide)⟩

/-! ### The wall-clock reading of the `"HH:MM"` string comparisons

`crud._validate_appointment_slot` compares zero-padded `"HH:MM"` strings
lexicographically; the following lemmas prove this agrees with comparing the
encoded hour/minute values numerically, which is what the spec's
"wall-clock time" reading of the availability check requires. -/

theorem digitChar_lt_iff {x y : Nat} (hx : x < 10) (hy : y < 10) :
    Nat.digitChar x < Nat.digitChar y ↔ x < y := by
  have H : ∀ x < 10, ∀ y < 10, (Nat.digitChar x < Nat.digitChar y ↔ x < y) := by decide
  exact H x hx y hy

theorem strLtChars_digit_cons {x y : Nat} (hx : x < 10) (hy : y < 10)
    (l1 l2 : List Char) :
    strLtChars (Nat.digitChar x :: l1) (Nat.digitChar y :: l2) =
      if x < y then true else if y < x then false else strLtChars l1 l2 := by
  rcases Nat.lt_trichotomy x y with h | h | h
  · rw [if_pos h]
    show (if Nat.digitChar x < Nat.digitChar y then true
      else if Nat.digitChar y < Nat.digitChar x then false else strLtChars l1 l2) = true
    rw [if_pos ((digitChar_lt_iff hx hy).mpr h)]
  · subst h
    rw [if_neg (lt_irrefl x), if_neg (lt_irrefl x)]
    show (if Nat.digitChar x < Nat.digitChar x then true
      else if Nat.digitChar x < Nat.digitChar x then false else strLtChars l1 l2) =
      strLtChars l1 l2
    rw [if_neg (fun hc => absurd ((digitChar_lt_iff hx hx).mp hc) (lt_irrefl x)),
      if_neg (fun hc => absurd ((digitChar_lt_iff hx hx).mp hc) (lt_irrefl x))]
  · rw [if_neg (Nat.lt_asymm h), if_pos h]
    show (if Nat.digitChar x < Nat.digitChar y then true
      else if Nat.digitChar y < Nat.digitChar x then false else strLtChars l1 l2) = false
    rw [if_neg (fun hc => absurd ((digitChar_lt_iff hx hy).mp hc) (Nat.lt_asymm h)),
      if_pos ((digitChar_lt_iff hy hx).mpr h)]

theorem strLtChars_colon_cons (l1 l2 : List Char) :
    strLtChars (':' :: l1) (':' :: l2) = strLtChars l1 l2 := by
  show (if ':' < ':' then true else if ':' < ':' then false else strLtChars l1 l2) =
    strLtChars l1 l2
  rw [if_neg (by decide), if_neg (by decide)]

/-- Python's `<` on two `"HH:MM"` strings is the lexicographic order on the
(hour, minute) pairs. -/
theorem hhmm_lt_iff {h1 m1 h2 m2 : Nat} (H1 : h1 < 100) (M1 : m1 < 100)
    (H2 : h2 < 100) (M2 : m2 < 100) :
    pyStrLt (hhmm h1 m1) (hhmm h2 m2) = true ↔ (h1 < h2 ∨ (h1 = h2 ∧ m1 < m2)) := by
  show strLtChars (hhmmChars h1 m1) (hhmmChars h2 m2) = true ↔ _
  simp only [hhmmChars, pad2, List.cons_append, List.nil_append]
  rw [strLtChars_digit_cons (by omega) (by omega),
    strLtChars_digit_cons (by omega) (by omega)]
  rw [strLtChars_colon_cons,
    strLtChars_digit_cons (by omega) (by omega),
    strLtChars_digit_cons (by omega) (by omega)]
  split_ifs <;> simp [strLtChars] <;> omega

/-- Python's `<=` on two `"HH:MM"` strings, likewise. -/
theorem hhmm_le_iff {h1 m1 h2 m2 : Nat} (H1 : h1 < 100) (M1 : m1 < 100)
    (H2 : h2 < 100) (M2 : m2 < 100) :
    pyStrLe (hhmm h1 m1) (hhmm h2 m2) = true ↔ (h1 < h2 ∨ (h1 = h2 ∧ m1 ≤ m2)) := by
  rw [show pyStrLe (hhmm h1 m1) (hhmm h2 m2) =
      !(pyStrLt (hhmm h2 m2) (hhmm h1 m1)) from rfl,
    Bool.not_eq_true', ← Bool.not_eq_true, hhmm_lt_iff H2 M2 H1 M1]
  omega

/-- A well-formed availability bound: a zero-padded `"HH:MM"` string with an
in-range hour and minute. -/
def ValidHHMM (s : String) : Prop := ∃ h m, h < 24 ∧ m < 60 ∧ s = hhmm h m

/-- The minute-of-day encoded by a well-formed `"HH:MM"` string. -/
def toMin (s : String) : Nat :=
  match s.data with
  | [a, b, _, d, e] =>
    (a.toNat - 48) * 600 + (b.toNat - 48) * 60 + (d.toNat - 48) * 10 + (e.toNat - 48)
  | _ => 0

theorem toMin_hhmm {h m : Nat} (hh : h < 100) (hm : m < 100) :
    toMin (hhmm h m) = h * 60 + m := by
  have d : ∀ x < 10, (Nat.digitChar x).toNat = 48 + x := by decide
  simp only [toMin, hhmm, hhmmChars, pad2, List.cons_append, List.nil_append]
  rw [d _ (by omega), d _ (by omega), d _ (by omega), d _ (by omega)]
  omega

theorem minuteOfDay_lt (T : Int) : minuteOfDay T < 1440 := by
  unfold minuteOfDay
  omega

/-- The availability predicate, read numerically: a well-formed window matches
the scheduled time exactly when the window's start is at or before the
wall-clock minute and the window's end is strictly after it. -/
theorem availabilityMatches_iff {a : DoctorAvailability} {T : Int}
    (hs : ValidHHMM a.start_time) (he : ValidHHMM a.end_time) :
    availabilityMatches a (timeStrOf T) = true ↔
      (toMin a.start_time ≤ minuteOfDay T ∧ minuteOfDay T < toMin a.end_time) := by
  obtain ⟨sh, sm, hsh, hsm, hseq⟩ := hs
  obtain ⟨eh, em, heh, hem, heeq⟩ := he
  have hmod := minuteOfDay_lt T
  rw [availabilityMatches, timeStrOf, hseq, heeq, Bool.and_eq_true,
    hhmm_le_iff (by omega) (by omega) (by omega) (by omega),
    hhmm_lt_iff (by omega) (by omega) (by omega) (by omega),
    toMin_hhmm (by omega) (by omega), toMin_hhmm (by omega) (by omega)]
  have hdm : minuteOfDay T / 60 * 60 + minuteOfDay T % 60 = minuteOfDay T := by omega
  omega

/-- C2. Given well-formed availability windows, the validator rejects with
`doctor_unavailable` iff no window of the doctor for the scheduled weekday
contains the wall-clock time (inclusive of start, exclusive of end); windows
are OR-ed, and zero windows for the day means a plain rejection. -/
theorem C2_doctor_unavailable (db : DB) (D P T : Int) (ex : Option Int)
    (hwf : ∀ a ∈ db.availabilities, ValidHHMM a.start_time ∧ ValidHHMM a.end_time) :
    validate_appointment_slot db D P T ex = some .doctorUnavailable ↔
      ¬ ∃ a ∈ db.availabilities, a.doctor_id = D ∧ a.day_of_week = weekday T ∧
        toMin a.start_time ≤ minuteOfDay T ∧ minuteOfDay T < toMin a.end_time := by
  have hany : ((db.availabilities.filter
      (fun a => a.doctor_id == D && a.day_of_week == weekday T)).any
      (fun a => availabilityMatches a (timeStrOf T)) = true) ↔
      ∃ a ∈ db.availabilities, a.doctor_id = D ∧ a.day_of_week = weekday T ∧
        toMin a.start_time ≤ minuteOfDay T ∧ minuteOfDay T < toMin a.end_time := by
    rw [List.any_eq_true]
    constructor
    · rintro ⟨a, ha, hm⟩
      rw [List.mem_filter, Bool.and_eq_true, beq_iff_eq, beq_iff_eq] at ha
      obtain ⟨ha, hd, hday⟩ := ha
      exact ⟨a, ha, hd, hday,
        (availabilityMatches_iff (hwf a ha).1 (hwf a ha).2).mp hm⟩
    · rintro ⟨a, ha, hd, hday, hm⟩
      refine ⟨a, List.mem_filter.mpr ⟨ha, ?_⟩, ?_⟩
      · rw [Bool.and_eq_true, beq_iff_eq, beq_iff_eq]
        exact ⟨hd, hday⟩
      · exact (availabilityMatches_iff (hwf a ha).1 (hwf a ha).2).mpr hm
  cases hb : (db.availabilities.filter
      (fun a => a.doctor_id == D && a.day_of_week == weekday T)).any
      (fun a => availabilityMatches a (timeStrOf T)) with
  | false =>
    have hval : validate_appointment_slot db D P T ex = some .doctorUnavailable := by
      simp [validate_appointment_slot, hb]
    rw [hval]
    simp only [true_iff]
    intro hc
    rw [hany.mpr hc] at hb
    cases hb
  | true =>
    have hval : validate_appointment_slot db D P T ex ≠ some .doctorUnavailable := by
      simp only [validate_appointment_slot, hb, Bool.not_true, Bool.false_eq_true,
        if_false]
      split_ifs <;> simp
    constructor
    · intro h
      exact absurd h hval
    · intro hc
      exact absurd (hany.mp hb) hc

/-- Witness for C2: doctor 1 works Mondays 09:00–17:00; Monday 08:00 is
outside the only window, so booking validation rejects with
`doctor_unavailable`. -/
theorem C2_doctor_unavailable_witness :
    validate_appointment_slot c1DB 1 1 480 none = some .doctorUnavailable := by
  have hwf : ∀ a ∈ c1DB.availabilities, ValidHHMM a.start_time ∧ ValidHHMM a.end_time := by
    intro a ha
    have : a = c1Avail := by
      simpa [c1DB] using ha
    subst this
    exact ⟨⟨9, 0, by omega, by omega, rfl⟩, ⟨17, 0, by omega, by omega, rfl⟩⟩
  exact (C2_doctor_unavailable c1DB 1 1 480 none hwf).mpr (by decide)

/-! ### The appointment update path (`crud.update_appointment` and the
`PATCH /appointments/{appt_id}` router) -/

/-- `schemas.AppointmentUpdate`: the optional fields of a `PATCH` body
(`status` is a plain optional string in the schema). -/
structure AppointmentUpdate where
  scheduled_time : Option Int
  status : Option String
  notes : Option String
deriving DecidableEq, Repr

/-- The `ValueError`s `crud.update_appointment` can raise: a Conflict
Detector rejection, or an invalid status string passed to the
`AppointmentStatus` constructor. -/
inductive UpdateError
  | slot (e : SlotError)
  | invalidStatusValue
deriving DecidableEq, Repr

/-- `db.commit()` after mutating a fetched appointment row: the row with the
same primary key is replaced by the mutated one. -/
def commitAppointment (db : DB) (appt : Appointment) : DB :=
  { db with appointments := db.appointments.map (fun a => if a.id == appt.id then appt else a) }

/-- The tail of `crud.update_appointment`: `if appt_in.notes is not None`,
then commit. -/
def applyNotes (db : DB) (appt : Appointment) (notes : Option String) :
    Except UpdateError (DB × Appointment) :=
  let appt := match notes with
    | some n => { appt with notes := some n }
    | none => appt
  .ok (commitAppointment db appt, appt)

/-- The middle of `crud.update_appointment`: `if appt_in.status is not None`,
set `models.AppointmentStatus(appt_in.status)` (which raises on an invalid
string). -/
def applyStatusNotes (db : DB) (appt : Appointment) (status notes : Option String) :
    Except UpdateError (DB × Appointment) :=
  match status with
  | some s =>
    match statusOfString s with
    | none => .error .invalidStatusValue
    | some st => applyNotes db { appt with status := st } notes
  | none => applyNotes db appt notes

/-- `crud.update_appointment`: when a new `scheduled_time` is supplied, the
Conflict Detector is re-run with the appointment's own id excluded before any
field is written; an error leaves the stored rows untouched. -/
def update_appointment (db : DB) (appt : Appointment) (upd : AppointmentUpdate) :
    Except UpdateError (DB × Appointment) :=
  match upd.scheduled_time with
  | some t =>
    match validate_appointment_slot db appt.doctor_id appt.patient_id t (some appt.id) with
    | some e => .error (.slot e)
    | none => applyStatusNotes db { appt with scheduled_time := t } upd.status upd.notes
  | none => applyStatusNotes db appt upd.status upd.notes

/-- `models.UserRole` of the authenticated caller. -/
inductive Role
  | patient
  | doctor
  | admin
deriving DecidableEq, Repr

/-- The caller of the `PATCH /appointments/{appt_id}` endpoint: its role and
the id of its patient or doctor profile. -/
structure Caller where
  role : Role
  profile_id : Int
deriving DecidableEq, Repr

/-- The HTTP-level outcomes of `routers.update_appointment`. -/
inductive ApiError
  | notFound
  | forbidden
  | invalidStatusChange
  | crudError (e : UpdateError)
deriving DecidableEq, Repr

/-- Python's `appt_in.status and appt_in.status not in
[models.AppointmentStatus.CANCELLED.value]`: the status is present, truthy
(non-empty), and not the string `"cancelled"`. -/
def statusTruthyNotCancelled (status : Option String) : Bool :=
  match status with
  | some s => !(s == "") && !(["cancelled"].contains s)
  | none => false

/-- `routers.update_appointment`: fetch, ownership guards, the
patient-may-only-cancel guard (with Python's truthiness test on
`appt_in.status`), then `crud.update_appointment`; the returned `DB` is the
store after the request (unchanged on every error path). -/
def patch_appointment (db : DB) (caller : Caller) (appt_id : Int)
    (upd : AppointmentUpdate) : DB × Except ApiError Appointment :=
  match db.appointments.find? (fun a => a.id == appt_id) with
  | none => (db, .error .notFound)
  | some appt =>
    if caller.role == .patient && !(appt.patient_id == caller.profile_id) then
      (db, .error .forbidden)
    else if caller.role == .patient && statusTruthyNotCancelled upd.status then
      (db, .error .invalidStatusChange)
    else if caller.role == .doctor && !(appt.doctor_id == caller.profile_id) then
      (db, .error .forbidden)
    else
      match update_appointment db appt upd with
      | .error e => (db, .error (.crudError e))
      | .ok (db', appt') => (db', .ok appt')

/-- C9. When an update carries a new `scheduled_time` and the Conflict
Detector — re-run with the appointment's own id excluded — rejects, the crud
layer raises exactly that reason, and the endpoint returns the store
unchanged with the reason surfaced to the caller. -/
theorem C9_reschedule_conflict_aborts (db : DB) (appt : Appointment)
    (upd : AppointmentUpdate) (t : Int) (r : SlotError)
    (ht : upd.scheduled_time = some t)
    (hv : validate_appointment_slot db appt.doctor_id appt.patient_id t
      (some appt.id) = some r) :
    update_appointment db appt upd = .error (.slot r)
    ∧ ∀ caller appt_id,
        db.appointments.find? (fun a => a.id == appt_id) = some appt →
        (caller.role == .patient && !(appt.patient_id == caller.profile_id)) = false →
        (caller.role == .patient && statusTruthyNotCancelled upd.status) = false →
        (caller.role == .doctor && !(appt.doctor_id == caller.profile_id)) = false →
        patch_appointment db caller appt_id upd =
          (db, .error (.crudError (.slot r))) := by
  have h1 : update_appointment db appt upd = .error (.slot r) := by
    simp [update_appointment, ht, hv]
  refine ⟨h1, ?_⟩
  intro caller appt_id hfind hg1 hg2 hg3
  simp [patch_appointment, hfind, hg1, hg2, hg3, h1]

/-- Appointments for the rescheduling scenario: id 1 holds Monday 09:30 and
id 2 holds Monday 11:00, both doctor 1 / patient 1. -/
def c9DB : DB := ⟨[c1Avail],
  [⟨1, 1, 1, none, 570, .approved, none⟩, ⟨2, 1, 1, none, 660, .pending, none⟩]⟩

/-- Witness for C9: rescheduling appointment 2 to Monday 09:40 collides with
appointment 1 (20 minutes away); the crud call errors with the doctor-slot
reason and an admin's request returns the store unchanged with the reason. -/
theorem C9_reschedule_conflict_aborts_witness :
    update_appointment c9DB ⟨2, 1, 1, none, 660, .pending, none⟩
      ⟨some 580, none, none⟩ = .error (.slot .doctorSlotConflict)
    ∧ patch_appointment c9DB ⟨.admin, 0⟩ 2 ⟨some 580, none, none⟩ =
      (c9DB, .error (.crudError (.slot .doctorSlotConflict))) := by
  have h := C9_reschedule_conflict_aborts c9DB ⟨2, 1, 1, none, 660, .pending, none⟩
    ⟨some 580, none, none⟩ 580 .doctorSlotConflict rfl (by decide)
  exact ⟨h.1, h.2 ⟨.admin, 0⟩ 2 (by decide) (by decide) (by decide) (by decide)⟩

/-- Appointment in a terminal (`rejected`) state for the C4 scenario. -/
def c4DB : DB := ⟨[], [⟨1, 1, 1, none, 570, .rejected, none⟩]⟩

/-- Counterexample to C4 as stated: the owning doctor PATCHes a `rejected`
appointment to `approved` and the stored status changes — `rejected` is not
terminal in the code. -/
theorem C4_terminal_status_counterexample :
    ((c4DB.appointments.find? (fun a => a.id == (1 : Int))).map (·.status) =
      some .rejected)
    ∧ (((patch_appointment c4DB ⟨.doctor, 1⟩ 1
        ⟨none, some "approved", none⟩).1.appointments.find?
        (fun a => a.id == (1 : Int))).map (·.status) = some .approved) := by
  decide

/-- C4 (amended). The code enforces no terminal states: whenever an update
carries a valid status string and no time change, `crud.update_appointment`
succeeds and writes exactly that status, whatever the current status
(including `rejected` and `cancelled`); only the router's patient guard
restricts patient callers to `cancelled`. -/
theorem C4_status_overwritten_unconditionally (db : DB) (appt : Appointment)
    (upd : AppointmentUpdate) (s : String) (st : AppointmentStatus)
    (ht : upd.scheduled_time = none) (hs : upd.status = some s)
    (hst : statusOfString s = some st) :
    (update_appointment db appt upd).map (fun p => p.2.status) = .ok st := by
  simp only [update_appointment, ht, applyStatusNotes, hs, hst, applyNotes]
  cases upd.notes <;> simp [Except.map]

/-- Witness for the amended C4: a `rejected` appointment is moved to
`approved` by a status-only update. -/
theorem C4_status_overwritten_unconditionally_witness :
    (update_appointment c4DB ⟨1, 1, 1, none, 570, .rejected, none⟩
      ⟨none, some "approved", none⟩).map (fun p => p.2.status) =
      .ok .approved :=
  C4_status_overwritten_unconditionally c4DB ⟨1, 1, 1, none, 570, .rejected, none⟩
    ⟨none, some "approved", none⟩ "approved" .approved rfl rfl rfl

/-- C5. A patient caller who owns the appointment may set status
`cancelled` (the update commits with status `cancelled`), while any other
non-empty requested status string is rejected with `invalid_status_change`
and the store is returned unchanged. -/
theorem C5_patient_may_only_cancel (db : DB) (caller : Caller) (appt_id : Int)
    (appt : Appointment)
    (hrole : caller.role = .patient)
    (hfind : db.appointments.find? (fun a => a.id == appt_id) = some appt)
    (hown : appt.patient_id = caller.profile_id) :
    (patch_appointment db caller appt_id ⟨none, some "cancelled", none⟩ =
      (commitAppointment db { appt with status := .cancelled },
       .ok { appt with status := .cancelled }))
    ∧ (∀ upd : AppointmentUpdate, ∀ s, upd.status = some s →
        s ≠ "cancelled" → s ≠ "" →
        patch_appointment db caller appt_id upd = (db, .error .invalidStatusChange)) := by
  constructor
  · simp [patch_appointment, hfind, hrole, hown, update_appointment,
      applyStatusNotes, statusOfString, applyNotes, statusTruthyNotCancelled]
  · intro upd s hs hne hne2
    have hg : statusTruthyNotCancelled upd.status = true := by
      simp [statusTruthyNotCancelled, hs, hne, hne2]
    simp [patch_appointment, hfind, hrole, hown, hg]

/-- Witness for C5: the owning patient cancels the pending appointment 2 of
`c9DB`, and the owning patient's attempt to approve it is rejected with
`invalid_status_change` leaving the store unchanged. -/
theorem C5_patient_may_only_cancel_witness :
    (patch_appointment c9DB ⟨.patient, 1⟩ 2 ⟨none, some "cancelled", none⟩ =
      (commitAppointment c9DB ⟨2, 1, 1, none, 660, .cancelled, none⟩,
       .ok ⟨2, 1, 1, none, 660, .cancelled, none⟩))
    ∧ (patch_appointment c9DB ⟨.patient, 1⟩ 2 ⟨none, some "approved", none⟩ =
      (c9DB, .error .invalidStatusChange)) := by
  have h := C5_patient_may_only_cancel c9DB ⟨.patient, 1⟩ 2
    ⟨2, 1, 1, none, 660, .pending, none⟩ rfl (by decide) rfl
  exact ⟨h.1, h.2 ⟨none, some "approved", none⟩ "approved" rfl
    (by decide) (by decide)⟩

/-! ### Refresh-token lifecycle (`crud.create_refresh_token_record`,
`crud.revoke_refresh_token`, `crud.validate_refresh_token`) -/

/-- `crud.create_refresh_token_record`: insert a fresh record with
`revoked = False`. -/
def create_refresh_token_record (store : List RefreshToken) (user_id : Int)
    (jti : String) (expires_at : Int) : List RefreshToken :=
  store ++ [⟨user_id, jti, expires_at, false⟩]

/-- `crud.revoke_refresh_token`: fetch the first record with the jti; if it
exists and is not yet revoked, mark it revoked; otherwise change nothing. -/
def revoke_refresh_token : List RefreshToken → String → List RefreshToken
  | [], _ => []
  | r :: rs, jti =>
    if r.jti == jti then
      (if r.revoked then r :: rs else { r with revoked := true } :: rs)
    else
      r :: revoke_refresh_token rs jti

/-- `crud.validate_refresh_token`: false when the record for `(jti, user_id)`
is missing, revoked, or past its expiry at the current time `now`; true
otherwise. -/
def validate_refresh_token (store : List RefreshToken) (jti : String)
    (user_id : Int) (now : Int) : Bool :=
  match store.find? (fun r => r.jti == jti && r.user_id == user_id) with
  | none => false
  | some rec => if rec.revoked || decide (rec.expires_at < now) then false else true

theorem find_none_of_no_jti (l : List RefreshToken) (jti : String) (uid : Int)
    (h : ∀ r ∈ l, r.jti ≠ jti) :
    l.find? (fun r => r.jti == jti && r.user_id == uid) = none := by
  rw [List.find?_eq_none]
  intro x hx
  simp [h x hx]

/-- With unique jtis, any record the validator can find after a revocation of
this jti is revoked. -/
theorem find_after_revoke (store : List RefreshToken) (jti : String) (uid : Int)
    (hu : List.Pairwise (fun a b => a.jti ≠ b.jti) store) :
    ∀ r, (revoke_refresh_token store jti).find?
        (fun r => r.jti == jti && r.user_id == uid) = some r → r.revoked = true := by
  induction store with
  | nil => simp [revoke_refresh_token]
  | cons a rs ih =>
    obtain ⟨ha, hp⟩ := List.pairwise_cons.mp hu
    intro r hr
    by_cases hj : a.jti = jti
    · have hrs : rs.find? (fun r => r.jti == jti && r.user_id == uid) = none :=
        find_none_of_no_jti rs jti uid (fun b hb => by
          have := ha b hb
          rw [hj] at this
          exact this.symm)
      cases hrv : a.revoked with
      | true =>
        rw [revoke_refresh_token, if_pos (by simp [hj]), if_pos hrv] at hr
        by_cases hupd : a.user_id = uid
        · rw [List.find?_cons_of_pos _ (by simp [hj, hupd])] at hr
          cases hr
          exact hrv
        · rw [List.find?_cons_of_neg _ (by simp [hupd]), hrs] at hr
          cases hr
      | false =>
        rw [revoke_refresh_token, if_pos (by simp [hj]), if_neg (by simp [hrv])] at hr
        by_cases hupd : a.user_id = uid
        · rw [List.find?_cons_of_pos _ (by simp [hj, hupd])] at hr
          cases hr
          rfl
        · rw [List.find?_cons_of_neg _ (by simp [hupd]), hrs] at hr
          cases hr
    · rw [revoke_refresh_token, if_neg (by simp [hj])] at hr
      rw [List.find?_cons_of_neg _ (by simp [hj])] at hr
      exact ih hp r hr

/-- C3. The validator returns false exactly when the persisted record is
missing, revoked, or expired; and after a rotation — revoke the old jti, then
persist a fresh record under a new jti — validating the old jti fails for
every user and clock. -/
theorem C3_validate_refresh_token (store : List RefreshToken) (jti : String)
    (uid : Int) (now : Int) :
    (validate_refresh_token store jti uid now = false ↔
      ∀ r, store.find? (fun r => r.jti == jti && r.user_id == uid) = some r →
        (r.revoked = true ∨ r.expires_at < now))
    ∧ (List.Pairwise (fun a b => a.jti ≠ b.jti) store →
       ∀ jti' uid' exp' u2 n2, jti' ≠ jti →
        validate_refresh_token
          (create_refresh_token_record (revoke_refresh_token store jti) uid' jti' exp')
          jti u2 n2 = false) := by
  constructor
  · cases hf : store.find? (fun r => r.jti == jti && r.user_id == uid) with
    | none =>
      simp only [validate_refresh_token, hf, true_iff]
      intro r hr
      cases hr
    | some rec =>
      simp only [validate_refresh_token, hf]
      cases hb : (rec.revoked || decide (rec.expires_at < now)) with
      | true =>
        rw [if_pos rfl]
        refine iff_of_true rfl ?_
        intro r hr
        cases hr
        simpa using hb
      | false =>
        rw [if_neg (by simp)]
        refine iff_of_false (by simp) ?_
        intro hall
        have hP := hall rec rfl
        rw [Bool.or_eq_false_iff] at hb
        rcases hP with h | h
        · rw [hb.1] at h
          exact Bool.noConfusion h
        · exact absurd h (by simpa using hb.2)
  · intro hu jti' uid' exp' u2 n2 hne
    rw [validate_refresh_token, create_refresh_token_record, List.find?_append]
    cases hf : (revoke_refresh_token store jti).find?
        (fun r => r.jti == jti && r.user_id == u2) with
    | none =>
      simp [hne]
    | some rec =>
      have := find_after_revoke store jti u2 hu rec hf
      simp [this]

theorem revoke_idem (store : List RefreshToken) (jti : String) :
    revoke_refresh_token (revoke_refresh_token store jti) jti =
      revoke_refresh_token store jti := by
  induction store with
  | nil => rfl
  | cons a rs ih =>
    by_cases hj : a.jti = jti
    · cases hrv : a.revoked with
      | true => simp [revoke_refresh_token, hj, hrv]
      | false => simp [revoke_refresh_token, hj, hrv]
    · simp [revoke_refresh_token, hj, ih]

theorem revoke_unknown (store : List RefreshToken) (jti : String)
    (h : ∀ r ∈ store, r.jti ≠ jti) :
    revoke_refresh_token store jti = store := by
  induction store with
  | nil => rfl
  | cons a rs ih =>
    have ha : a.jti ≠ jti := h a (by simp)
    simp [revoke_refresh_token, ha, ih (fun r hr => h r (by simp [hr]))]

theorem revoke_already_revoked (store : List RefreshToken) (jti : String)
    (h : ∀ r ∈ store, r.jti = jti → r.revoked = true) :
    revoke_refresh_token store jti = store := by
  induction store with
  | nil => rfl
  | cons a rs ih =>
    by_cases hj : a.jti = jti
    · simp [revoke_refresh_token, hj, h a (by simp) hj]
    · simp [revoke_refresh_token, hj, ih (fun r hr => h r (by simp [hr]))]

theorem revoke_length (store : List RefreshToken) (jti : String) :
    (revoke_refresh_token store jti).length = store.length := by
  induction store with
  | nil => rfl
  | cons a rs ih =>
    by_cases hj : a.jti = jti
    · cases hrv : a.revoked <;> simp [revoke_refresh_token, hj, hrv]
    · simp [revoke_refresh_token, hj, ih]

theorem revoke_monotone (store : List RefreshToken) (jti : String) :
    ∀ i : Nat, store[i]?.map (·.revoked) = some true →
      (revoke_refresh_token store jti)[i]?.map (·.revoked) = some true := by
  induction store with
  | nil => simp
  | cons a rs ih =>
    intro i hi
    by_cases hj : a.jti = jti
    · cases hrv : a.revoked with
      | true =>
        simpa [revoke_refresh_token, hj, hrv] using hi
      | false =>
        cases i with
        | zero => simp [hrv] at hi
        | succ n =>
          simp only [List.getElem?_cons_succ] at hi
          simp [revoke_refresh_token, hj, hrv, hi]
    · cases i with
      | zero => simpa [revoke_refresh_token, hj] using hi
      | succ n =>
        simp only [List.getElem?_cons_succ] at hi
        simpa [revoke_refresh_token, hj] using ih n hi

/-- C8. `revoke` is idempotent and total: revoking twice equals revoking
once; revoking an unknown jti, or one whose records are already revoked, is a
no-op; no record is created or removed; no record's `revoked` flag ever goes
back from true to false, neither by `revoke` nor by inserting a fresh
record. -/
theorem C8_revoke_idempotent (store : List RefreshToken) (jti : String) :
    (revoke_refresh_token (revoke_refresh_token store jti) jti =
      revoke_refresh_token store jti)
    ∧ ((∀ r ∈ store, r.jti ≠ jti) → revoke_refresh_token store jti = store)
    ∧ ((∀ r ∈ store, r.jti = jti → r.revoked = true) →
        revoke_refresh_token store jti = store)
    ∧ ((revoke_refresh_token store jti).length = store.length)
    ∧ (∀ i : Nat, store[i]?.map (·.revoked) = some true →
        (revoke_refresh_token store jti)[i]?.map (·.revoked) = some true)
    ∧ (∀ uid (jti' : String) exp' (i : Nat), i < store.length →
        (create_refresh_token_record store uid jti' exp')[i]? = store[i]?) :=
  ⟨revoke_idem store jti, revoke_unknown store jti, revoke_already_revoked store jti,
    revoke_length store jti, revoke_monotone store jti,
    fun uid jti' exp' i hi => by simp [create_refresh_token_record, List.getElem?_append, hi]⟩

/-- Token store for the lifecycle scenarios: a live record "a" for user 1 and
an already-revoked record "b" for user 2. -/
def c8Store : List RefreshToken := [⟨1, "a", 100, false⟩, ⟨2, "b", 100, true⟩]

/-- Witness for C8 on `c8Store`. -/
theorem C8_revoke_idempotent_witness :
    (revoke_refresh_token (revoke_refresh_token c8Store "a") "a" =
      revoke_refresh_token c8Store "a")
    ∧ revoke_refresh_token c8Store "zz" = c8Store
    ∧ revoke_refresh_token c8Store "b" = c8Store
    ∧ (revoke_refresh_token c8Store "a")[1]?.map (·.revoked) = some true
    ∧ (create_refresh_token_record c8Store 3 "c" 200)[0]? = c8Store[0]? :=
  ⟨(C8_revoke_idempotent c8Store "a").1,
    (C8_revoke_idempotent c8Store "zz").2.1 (by decide),
    (C8_revoke_idempotent c8Store "b").2.2.1 (by decide),
    (C8_revoke_idempotent c8Store "a").2.2.2.2.1 1 (by decide),
    (C8_revoke_idempotent c8Store "a").2.2.2.2.2 3 "c" 200 0 (by decide)⟩

/-- Witness for C3 on `c8Store`: a live unexpired record validates; a missing
jti does not; after rotating "a" to "c", the old jti "a" no longer
validates. -/
theorem C3_validate_refresh_token_witness :
    validate_refresh_token c8Store "a" 1 50 = true
    ∧ validate_refresh_token c8Store "zz" 1 50 = false
    ∧ validate_refresh_token
        (create_refresh_token_record (revoke_refresh_token c8Store "a") 1 "c" 300)
        "a" 1 50 = false := by
  refine ⟨?_, ?_, ?_⟩
  · have h := (C3_validate_refresh_token c8Store "a" 1 50).1
    cases hb : validate_refresh_token c8Store "a" 1 50 with
    | true => rfl
    | false =>
      rcases h.mp hb ⟨1, "a", 100, false⟩ (by decide) with hc | hc
      · exact Bool.noConfusion hc
      · exact absurd hc (by decide)
  · have hnone : c8Store.find? (fun r => r.jti == "zz" && r.user_id == 1) = none := by
      decide
    exact (C3_validate_refresh_token c8Store "zz" 1 50).1.mpr
      (fun r hr => Option.noConfusion (hnone.symm.trans hr))
  · exact (C3_validate_refresh_token c8Store "a" 1 50).2 (by decide) "c" 1 300 1 50
      (by decide)

/-! ### UTF-8 (`plaintext.encode()` / `pt.decode()` in `encryption.py`)

Python's `str.encode()` is standard UTF-8 over the string's code points
(Lean's `Char` carries exactly the valid code points), and `bytes.decode()`
is the strict UTF-8 decoder that rejects malformed input. -/

/-- The UTF-8 bytes of one code point. -/
def utf8EncodeChar (c : Char) : List Nat :=
  let v := c.toNat
  if v < 0x80 then [v]
  else if v < 0x800 then [0xC0 + v / 64, 0x80 + v % 64]
  else if v < 0x10000 then [0xE0 + v / 4096, 0x80 + v / 64 % 64, 0x80 + v % 64]
  else [0xF0 + v / 262144, 0x80 + v / 4096 % 64, 0x80 + v / 64 % 64, 0x80 + v % 64]

/-- UTF-8 encoding of a sequence of code points. -/
def utf8EncodeChars : List Char → List Nat
  | [] => []
  | c :: cs => utf8EncodeChar c ++ utf8EncodeChars cs

/-- Python `s.encode()`. -/
def utf8Encode (s : String) : List Nat := utf8EncodeChars s.data

/-- The code point of a two-byte UTF-8 sequence. -/
def utf8V2 (b1 b2 : Nat) : Nat := (b1 - 0xC0) * 64 + (b2 - 0x80)

/-- The code point of a three-byte UTF-8 sequence. -/
def utf8V3 (b1 b2 b3 : Nat) : Nat := (b1 - 0xE0) * 4096 + (b2 - 0x80) * 64 + (b3 - 0x80)

/-- The code point of a four-byte UTF-8 sequence. -/
def utf8V4 (b1 b2 b3 b4 : Nat) : Nat :=
  (b1 - 0xF0) * 262144 + (b2 - 0x80) * 4096 + (b3 - 0x80) * 64 + (b4 - 0x80)

/-- A valid two-byte UTF-8 sequence head: lead in `[0xC2, 0xE0)` (this
excludes the overlong leads `0xC0`/`0xC1`) and a continuation byte. -/
def twoOk (b1 b2 : Nat) : Bool :=
  decide (0xC2 ≤ b1) && decide (b1 < 0xE0) && decide (0x80 ≤ b2) && decide (b2 < 0xC0)

/-- A valid three-byte UTF-8 sequence: lead in `[0xE0, 0xF0)`, continuation
bytes, and a value that is neither overlong nor a surrogate. -/
def threeOk (b1 b2 b3 : Nat) : Bool :=
  decide (0xE0 ≤ b1) && decide (b1 < 0xF0) &&
    decide (0x80 ≤ b2) && decide (b2 < 0xC0) && decide (0x80 ≤ b3) && decide (b3 < 0xC0) &&
    decide (0x800 ≤ utf8V3 b1 b2 b3) &&
    (decide (utf8V3 b1 b2 b3 < 0xD800) || decide (0xE000 ≤ utf8V3 b1 b2 b3))

/-- A valid four-byte UTF-8 sequence: lead in `[0xF0, 0xF5)`, continuation
bytes, and a value in `[0x10000, 0x110000)`. -/
def fourOk (b1 b2 b3 b4 : Nat) : Bool :=
  decide (0xF0 ≤ b1) && decide (b1 < 0xF5) &&
    decide (0x80 ≤ b2) && decide (b2 < 0xC0) && decide (0x80 ≤ b3) && decide (b3 < 0xC0) &&
    decide (0x80 ≤ b4) && decide (b4 < 0xC0) &&
    decide (0x10000 ≤ utf8V4 b1 b2 b3 b4) && decide (utf8V4 b1 b2 b3 b4 < 0x110000)

/-- Strict UTF-8 decoding (Python `bytes.decode()`): rejects stray or missing
continuation bytes, overlong forms, surrogates and out-of-range values. -/
def utf8Decode : List Nat → Option (List Char)
  | [] => some []
  | [b1] =>
    if b1 < 0x80 then some [Char.ofNat b1] else none
  | [b1, b2] =>
    if b1 < 0x80 then (utf8Decode [b2]).map (fun cs => Char.ofNat b1 :: cs)
    else if twoOk b1 b2 then some [Char.ofNat (utf8V2 b1 b2)]
    else none
  | [b1, b2, b3] =>
    if b1 < 0x80 then (utf8Decode [b2, b3]).map (fun cs => Char.ofNat b1 :: cs)
    else if twoOk b1 b2 then (utf8Decode [b3]).map (fun cs => Char.ofNat (utf8V2 b1 b2) :: cs)
    else if threeOk b1 b2 b3 then some [Char.ofNat (utf8V3 b1 b2 b3)]
    else none
  | b1 :: b2 :: b3 :: b4 :: bs =>
    if b1 < 0x80 then
      (utf8Decode (b2 :: b3 :: b4 :: bs)).map (fun cs => Char.ofNat b1 :: cs)
    else if twoOk b1 b2 then
      (utf8Decode (b3 :: b4 :: bs)).map (fun cs => Char.ofNat (utf8V2 b1 b2) :: cs)
    else if threeOk b1 b2 b3 then
      (utf8Decode (b4 :: bs)).map (fun cs => Char.ofNat (utf8V3 b1 b2 b3) :: cs)
    else if fourOk b1 b2 b3 b4 then
      (utf8Decode bs).map (fun cs => Char.ofNat (utf8V4 b1 b2 b3 b4) :: cs)
    else none

theorem utf8Decode_one {b : Nat} (h : b < 0x80) (bs : List Nat) :
    utf8Decode (b :: bs) = (utf8Decode bs).map (fun cs => Char.ofNat b :: cs) := by
  obtain _ | ⟨b2, _ | ⟨b3, _ | ⟨b4, bs3⟩⟩⟩ := bs <;> simp [utf8Decode, h]

theorem utf8Decode_two {b1 b2 : Nat} (h1 : ¬ b1 < 0x80) (h2 : twoOk b1 b2 = true)
    (bs : List Nat) :
    utf8Decode (b1 :: b2 :: bs) =
      (utf8Decode bs).map (fun cs => Char.ofNat (utf8V2 b1 b2) :: cs) := by
  obtain _ | ⟨b3, _ | ⟨b4, bs2⟩⟩ := bs <;> simp [utf8Decode, h1, h2]

theorem utf8Decode_three {b1 b2 b3 : Nat} (h1 : ¬ b1 < 0x80)
    (h2 : twoOk b1 b2 = false) (h3 : threeOk b1 b2 b3 = true) (bs : List Nat) :
    utf8Decode (b1 :: b2 :: b3 :: bs) =
      (utf8Decode bs).map (fun cs => Char.ofNat (utf8V3 b1 b2 b3) :: cs) := by
  obtain _ | ⟨b4, bs2⟩ := bs <;> simp [utf8Decode, h1, h2, h3]

theorem utf8Decode_four {b1 b2 b3 b4 : Nat} (h1 : ¬ b1 < 0x80)
    (h2 : twoOk b1 b2 = false) (h3 : threeOk b1 b2 b3 = false)
    (h4 : fourOk b1 b2 b3 b4 = true) (bs : List Nat) :
    utf8Decode (b1 :: b2 :: b3 :: b4 :: bs) =
      (utf8Decode bs).map (fun cs => Char.ofNat (utf8V4 b1 b2 b3 b4) :: cs) := by
  simp [utf8Decode, h1, h2, h3, h4]

/-- The valid-code-point range of a `Char`, as plain arithmetic. -/
theorem char_toNat_valid (c : Char) :
    c.toNat < 0xD800 ∨ (0xDFFF < c.toNat ∧ c.toNat < 0x110000) := c.valid

/-- Decoding peels one encoded code point off the front and recovers it. -/
theorem utf8Decode_encodeChar (c : Char) (bs : List Nat) :
    utf8Decode (utf8EncodeChar c ++ bs) = (utf8Decode bs).map (fun cs => c :: cs) := by
  have hval := char_toNat_valid c
  by_cases hc1 : c.toNat < 0x80
  · rw [show utf8EncodeChar c = [c.toNat] from by simp [utf8EncodeChar, hc1]]
    rw [List.cons_append, List.nil_append, utf8Decode_one hc1]
    simp only [Char.ofNat_toNat]
  · by_cases hc2 : c.toNat < 0x800
    · rw [show utf8EncodeChar c = [0xC0 + c.toNat / 64, 0x80 + c.toNat % 64] from by
        simp [utf8EncodeChar, hc1, hc2]]
      rw [List.cons_append, List.cons_append, List.nil_append,
        utf8Decode_two (by omega) (by simp only [twoOk, utf8V2]; simp <;> omega)]
      simp only [show utf8V2 (0xC0 + c.toNat / 64) (0x80 + c.toNat % 64) =
        c.toNat from by simp only [utf8V2]; omega, Char.ofNat_toNat]
    · by_cases hc3 : c.toNat < 0x10000
      · rw [show utf8EncodeChar c =
            [0xE0 + c.toNat / 4096, 0x80 + c.toNat / 64 % 64, 0x80 + c.toNat % 64] from by
          simp [utf8EncodeChar, hc1, hc2, hc3]]
        rw [List.cons_append, List.cons_append, List.cons_append, List.nil_append,
          utf8Decode_three (by omega) (by simp only [twoOk]; simp)
            (by simp only [threeOk, utf8V3]; simp <;> omega)]
        simp only [show utf8V3 (0xE0 + c.toNat / 4096) (0x80 + c.toNat / 64 % 64)
          (0x80 + c.toNat % 64) = c.toNat from by simp only [utf8V3]; omega,
          Char.ofNat_toNat]
      · rw [show utf8EncodeChar c =
            [0xF0 + c.toNat / 262144, 0x80 + c.toNat / 4096 % 64,
              0x80 + c.toNat / 64 % 64, 0x80 + c.toNat % 64] from by
          simp [utf8EncodeChar, hc1, hc2, hc3]]
        rw [List.cons_append, List.cons_append, List.cons_append, List.cons_append,
          List.nil_append,
          utf8Decode_four (by omega) (by simp only [twoOk]; simp <;> omega)
            (by simp only [threeOk]; simp)
            (by simp only [fourOk, utf8V4]; simp <;> omega)]
        simp only [show utf8V4 (0xF0 + c.toNat / 262144) (0x80 + c.toNat / 4096 % 64)
          (0x80 + c.toNat / 64 % 64) (0x80 + c.toNat % 64) = c.toNat from by
          simp only [utf8V4]; omega, Char.ofNat_toNat]

theorem utf8Decode_encodeChars (cs : List Char) :
    utf8Decode (utf8EncodeChars cs) = some cs := by
  induction cs with
  | nil => rfl
  | cons c cs ih =>
    rw [utf8EncodeChars, utf8Decode_encodeChar c, ih, Option.map_some']

/-- Python `s.encode().decode()` recovers the string's code points. -/
theorem utf8Decode_utf8Encode (s : String) : utf8Decode (utf8Encode s) = some s.data :=
  utf8Decode_encodeChars s.data

theorem utf8EncodeChar_lt_256 (c : Char) : ∀ b ∈ utf8EncodeChar c, b < 256 := by
  have hval := char_toNat_valid c
  intro b hb
  by_cases hc1 : c.toNat < 0x80
  · simp only [utf8EncodeChar, hc1, if_true] at hb
    simp only [List.mem_singleton] at hb
    omega
  · by_cases hc2 : c.toNat < 0x800
    · simp only [utf8EncodeChar, hc1, hc2, if_false, if_true] at hb
      simp only [List.mem_cons, List.not_mem_nil, or_false] at hb
      rcases hb with h | h <;> omega
    · by_cases hc3 : c.toNat < 0x10000
      · simp only [utf8EncodeChar, hc1, hc2, hc3, if_false, if_true] at hb
        simp only [List.mem_cons, List.not_mem_nil, or_false] at hb
        rcases hb with h | h | h <;> omega
      · simp only [utf8EncodeChar, hc1, hc2, hc3, if_false] at hb
        simp only [List.mem_cons, List.not_mem_nil, or_false] at hb
        rcases hb with h | h | h | h <;> omega

theorem utf8Encode_lt_256 (s : String) : ∀ b ∈ utf8Encode s, b < 256 := by
  rw [utf8Encode]
  induction s.data with
  | nil => simp [utf8EncodeChars]
  | cons c cs ih =>
    intro b hb
    rw [utf8EncodeChars] at hb
    rcases List.mem_append.mp hb with h | h
    · exact utf8EncodeChar_lt_256 c b h
    · exact ih b h

/-! ### Base64 (`base64.b64encode` / `base64.b64decode` in `encryption.py`)

The standard alphabet with `=` padding. The decoder here is the strict
RFC 4648 decoding; it accepts every encoder output (proved below), and the
claims only ever use the decoder through "returns `some`" / "returns `none`"
hypotheses, so Python's extra leniency on non-alphabet input is immaterial. -/

/-- The standard base64 alphabet. -/
def b64Chars : List Char :=
  "ABCDEFGHIJKLMNOPQRSTUVWXYZabcdefghijklmnopqrstuvwxyz0123456789+/".data

/-- The alphabet character of a sextet. -/
def sextetChar (n : Nat) : Char := b64Chars.getD n 'A'

/-- The sextet of an alphabet character, `none` outside the alphabet. -/
def sextetOfChar (c : Char) : Option Nat := b64Chars.findIdx? (fun x => x == c)

/-- `base64.b64encode` over byte values. -/
def b64encodeBytes : List Nat → List Char
  | b1 :: b2 :: b3 :: rest =>
    sextetChar (b1 / 4) :: sextetChar (b1 % 4 * 16 + b2 / 16) ::
      sextetChar (b2 % 16 * 4 + b3 / 64) :: sextetChar (b3 % 64) :: b64encodeBytes rest
  | [b1, b2] =>
    [sextetChar (b1 / 4), sextetChar (b1 % 4 * 16 + b2 / 16), sextetChar (b2 % 16 * 4), '=']
  | [b1] => [sextetChar (b1 / 4), sextetChar (b1 % 4 * 16), '=', '=']
  | [] => []

/-- `base64.b64decode` over characters (strict decoding; `none` on malformed
input). -/
def b64decodeChars : List Char → Option (List Nat)
  | [] => some []
  | c1 :: c2 :: c3 :: c4 :: rest =>
    (sextetOfChar c1).bind fun s1 =>
    (sextetOfChar c2).bind fun s2 =>
    if c3 = '=' then
      (if c4 = '=' ∧ rest = [] then some [s1 * 4 + s2 / 16] else none)
    else
      (sextetOfChar c3).bind fun s3 =>
      if c4 = '=' then
        (if rest = [] then some [s1 * 4 + s2 / 16, s2 % 16 * 16 + s3 / 4] else none)
      else
        (sextetOfChar c4).bind fun s4 =>
        (b64decodeChars rest).map (fun bs =>
          (s1 * 4 + s2 / 16) :: (s2 % 16 * 16 + s3 / 4) :: (s3 % 4 * 64 + s4) :: bs)
  | _ => none

theorem sextetOfChar_sextetChar {n : Nat} (h : n < 64) :
    sextetOfChar (sextetChar n) = some n := by
  have H : ∀ n < 64, sextetOfChar (sextetChar n) = some n := by decide
  exact H n h

theorem sextetChar_ne_pad {n : Nat} (h : n < 64) : sextetChar n ≠ '=' := by
  have H : ∀ n < 64, sextetChar n ≠ '=' := by decide
  exact H n h

/-- Decoding inverts encoding on genuine byte sequences. -/
theorem b64decode_encode (bs : List Nat) (h : ∀ b ∈ bs, b < 256) :
    b64decodeChars (b64encodeBytes bs) = some bs := by
  induction bs using b64encodeBytes.induct with
  | case1 b1 b2 b3 rest ih =>
    have hb1 : b1 < 256 := h b1 (by simp)
    have hb2 : b2 < 256 := h b2 (by simp)
    have hb3 : b3 < 256 := h b3 (by simp)
    have hrest := ih (fun b hb => h b (by simp [hb]))
    have e1 : b1 / 4 * 4 + (b1 % 4 * 16 + b2 / 16) / 16 = b1 := by omega
    have e2 : (b1 % 4 * 16 + b2 / 16) % 16 * 16 + (b2 % 16 * 4 + b3 / 64) / 4 = b2 := by
      omega
    have e3 : (b2 % 16 * 4 + b3 / 64) % 4 * 64 + b3 % 64 = b3 := by omega
    simp [b64encodeBytes, b64decodeChars,
      sextetOfChar_sextetChar (show b1 / 4 < 64 by omega),
      sextetOfChar_sextetChar (show b1 % 4 * 16 + b2 / 16 < 64 by omega),
      sextetOfChar_sextetChar (show b2 % 16 * 4 + b3 / 64 < 64 by omega),
      sextetOfChar_sextetChar (show b3 % 64 < 64 by omega),
      sextetChar_ne_pad (show b2 % 16 * 4 + b3 / 64 < 64 by omega),
      sextetChar_ne_pad (show b3 % 64 < 64 by omega),
      hrest, e1, e2, e3]
  | case2 b1 b2 =>
    have hb1 : b1 < 256 := h b1 (by simp)
    have hb2 : b2 < 256 := h b2 (by simp)
    have e1 : b1 / 4 * 4 + (b1 % 4 * 16 + b2 / 16) / 16 = b1 := by omega
    have e2 : (b1 % 4 * 16 + b2 / 16) % 16 * 16 + b2 % 16 * 4 / 4 = b2 := by omega
    simp [b64encodeBytes, b64decodeChars,
      sextetOfChar_sextetChar (show b1 / 4 < 64 by omega),
      sextetOfChar_sextetChar (show b1 % 4 * 16 + b2 / 16 < 64 by omega),
      sextetOfChar_sextetChar (show b2 % 16 * 4 < 64 by omega),
      sextetChar_ne_pad (show b2 % 16 * 4 < 64 by omega),
      e1, e2]
    omega
  | case3 b1 =>
    have hb1 : b1 < 256 := h b1 (by simp)
    have e1 : b1 / 4 * 4 + b1 % 4 * 16 / 16 = b1 := by omega
    simp [b64encodeBytes, b64decodeChars,
      sextetOfChar_sextetChar (show b1 / 4 < 64 by omega),
      sextetOfChar_sextetChar (show b1 % 4 * 16 < 64 by omega),
      e1]
    omega
  | case4 => rfl

/-! ### The encryption boundary (`encryption.py`) -/

/-- The AES-GCM primitive of the `cryptography` library, which is outside
this repository: `enc nonce pt` is the ciphertext-with-tag bytes and
`dec nonce ct` returns `none` when the authentication tag does not verify.
The theorems take the library's contract (decryption inverts encryption, and
ciphertexts are bytes) as explicit hypotheses. -/
structure AEAD where
  enc : List Nat → List Nat → List Nat
  dec : List Nat → List Nat → Option (List Nat)

/-- `encryption.encrypt`: `None` passes through; otherwise UTF-8-encode the
plaintext, AES-GCM-encrypt it under the (explicitly passed) fresh nonce, and
base64 the nonce-prefixed ciphertext. The 12 random nonce bytes of
`os.urandom(12)` are an explicit argument. -/
def encrypt (A : AEAD) (nonce : List Nat) : Option String → Option String
  | none => none
  | some pt => some (String.mk (b64encodeBytes (nonce ++ A.enc nonce (utf8Encode pt))))

/-- `encryption.decrypt`: `None` passes through; otherwise base64-decode,
split off the 12-byte nonce, AES-GCM-decrypt, and UTF-8-decode — any failure
(`except Exception: return None`) yields `none`. -/
def decrypt (A : AEAD) : Option String → Option String
  | none => none
  | some token =>
    (b64decodeChars token.data).bind fun raw =>
    (A.dec (raw.take 12) (raw.drop 12)).bind fun ptBytes =>
    (utf8Decode ptBytes).map fun cs => String.mk cs

/-- C6. Whenever the AES-GCM primitive satisfies its contract (decryption
inverts encryption and ciphertexts are bytes) and the nonce is 12 bytes,
`open (seal s) = s` for every string `s` — including the empty string and
strings with non-ASCII code points. -/
theorem C6_open_seal_roundtrip (A : AEAD)
    (hA : ∀ n p, A.dec n (A.enc n p) = some p)
    (hRange : ∀ n p, (∀ b ∈ p, b < 256) → ∀ b ∈ A.enc n p, b < 256)
    (nonce : List Nat) (hlen : nonce.length = 12) (hnb : ∀ b ∈ nonce, b < 256)
    (s : String) :
    decrypt A (encrypt A nonce (some s)) = some s := by
  have hct := hRange nonce (utf8Encode s) (utf8Encode_lt_256 s)
  have hall : ∀ b ∈ nonce ++ A.enc nonce (utf8Encode s), b < 256 := by
    intro b hb
    rcases List.mem_append.mp hb with hm | hm
    · exact hnb b hm
    · exact hct b hm
  have htake : (nonce ++ A.enc nonce (utf8Encode s)).take 12 = nonce := by
    rw [← hlen]
    exact List.take_left _ _
  have hdrop : (nonce ++ A.enc nonce (utf8Encode s)).drop 12 = A.enc nonce (utf8Encode s) := by
    rw [← hlen]
    exact List.drop_left _ _
  rw [encrypt, decrypt]
  rw [show (String.mk (b64encodeBytes (nonce ++ A.enc nonce (utf8Encode s)))).data =
    b64encodeBytes (nonce ++ A.enc nonce (utf8Encode s)) from rfl]
  rw [b64decode_encode _ hall, Option.some_bind, htake, hdrop, hA, Option.some_bind,
    utf8Decode_utf8Encode, Option.map_some']

/-- C7. `seal(None) = None`, `open(None) = None`, and `open` fails closed:
base64 failure, authentication failure, and UTF-8 failure each yield `None`
(the embedding is a total function, mirroring the `except Exception` guard). -/
theorem C7_open_fails_closed (A : AEAD) (nonce : List Nat) :
    encrypt A nonce none = none
    ∧ decrypt A none = none
    ∧ (∀ t : String, b64decodeChars t.data = none → decrypt A (some t) = none)
    ∧ (∀ (t : String) raw, b64decodeChars t.data = some raw →
        A.dec (raw.take 12) (raw.drop 12) = none → decrypt A (some t) = none)
    ∧ (∀ (t : String) raw pt, b64decodeChars t.data = some raw →
        A.dec (raw.take 12) (raw.drop 12) = some pt → utf8Decode pt = none →
        decrypt A (some t) = none) := by
  refine ⟨rfl, rfl, ?_, ?_, ?_⟩
  · intro t h
    rw [decrypt, h, Option.none_bind]
  · intro t raw h1 h2
    rw [decrypt, h1, Option.some_bind, h2, Option.none_bind]
  · intro t raw pt h1 h2 h3
    rw [decrypt, h1, Option.some_bind, h2, Option.some_bind, h3, Option.map_none']

/-- A trivial AEAD satisfying the contract: used to instantiate the
round-trip theorem on concrete data. -/
def identityAEAD : AEAD := ⟨fun _ p => p, fun _ c => some c⟩

/-- An AEAD whose decryption always rejects (models a bad tag). -/
def rejectAEAD : AEAD := ⟨fun _ p => p, fun _ _ => none⟩

/-- An AEAD whose decryption returns non-UTF-8 bytes. -/
def garbageAEAD : AEAD := ⟨fun _ p => p, fun _ _ => some [255]⟩

/-- Witness for C6: the round trip on the empty string and on a string with
two- and three-byte UTF-8 code points, under a 12-byte nonce. -/
theorem C6_open_seal_roundtrip_witness :
    decrypt identityAEAD
        (encrypt identityAEAD (List.replicate 12 0) (some "")) = some ""
    ∧ decrypt identityAEAD
        (encrypt identityAEAD (List.replicate 12 0) (some "héllo ∀")) = some "héllo ∀" :=
  ⟨C6_open_seal_roundtrip identityAEAD (fun _ _ => rfl) (fun _ _ h => h)
      (List.replicate 12 0) rfl (by decide) "",
    C6_open_seal_roundtrip identityAEAD (fun _ _ => rfl) (fun _ _ h => h)
      (List.replicate 12 0) rfl (by decide) "héllo ∀"⟩

/-- Witness for C7: each failure branch at a concrete input. -/
theorem C7_open_fails_closed_witness :
    encrypt identityAEAD [0] none = none
    ∧ decrypt identityAEAD none = none
    ∧ decrypt identityAEAD (some "!!!") = none
    ∧ decrypt rejectAEAD (some "AAAA") = none
    ∧ decrypt garbageAEAD (some "AAAA") = none :=
  ⟨(C7_open_fails_closed identityAEAD [0]).1,
    (C7_open_fails_closed identityAEAD [0]).2.1,
    (C7_open_fails_closed identityAEAD [0]).2.2.1 "!!!" (by decide),
    (C7_open_fails_closed rejectAEAD [0]).2.2.2.1 "AAAA" [0, 0, 0] (by decide) rfl,
    (C7_open_fails_closed garbageAEAD [0]).2.2.2.2 "AAAA" [0, 0, 0] [255]
      (by decide) rfl (by decide)⟩

/-! ### Key normalization (`encryption._normalize_key`) -/

/-- `encryption._normalize_key`: UTF-8-encode the configured secret; truncate
to 32 bytes if long enough, else append 32 ASCII `'0'` bytes (`b"0" * 32`,
i.e. byte `48`) and truncate to 32. -/
def normalize_key (raw : String) : List Nat :=
  let b := utf8Encode raw
  if 32 ≤ b.length then b.take 32 else (b ++ List.replicate 32 48).take 32

/-- The claim's reading of the derivation ("zero-padded"): pad short secrets
with zero bytes up to 32. Stated only to compare against the source's
`normalize_key`. -/
def normalize_key_zero_padded (raw : String) : List Nat :=
  let b := utf8Encode raw
  if 32 ≤ b.length then b.take 32 else b ++ List.replicate (32 - b.length) 0

/-- Counterexample to C10 as stated: for the one-byte secret `"k"` the
derived key is not the zero-padded key — the padding byte is `0x30`
(ASCII `'0'`), not `0x00`. -/
theorem C10_zero_padding_counterexample :
    normalize_key "k" ≠ normalize_key_zero_padded "k" := by decide

/-- C10 (amended). The derived key is exactly 32 bytes: a secret of 32 or
more UTF-8 bytes is truncated to its first 32 bytes, and a shorter secret is
padded up to 32 bytes with the ASCII digit `'0'` (byte `0x30`), not with zero
bytes. -/
theorem C10_key_normalization (raw : String) :
    (normalize_key raw).length = 32
    ∧ (32 ≤ (utf8Encode raw).length → normalize_key raw = (utf8Encode raw).take 32)
    ∧ ((utf8Encode raw).length < 32 →
        normalize_key raw =
          utf8Encode raw ++ List.replicate (32 - (utf8Encode raw).length) 48) := by
  refine ⟨?_, ?_, ?_⟩
  · rw [normalize_key]
    split_ifs with hl
    · simp only [List.length_take]
      omega
    · simp only [List.length_take, List.length_append, List.length_replicate]
      omega
  · intro hl
    simp only [normalize_key, if_pos hl]
  · intro hl
    rw [normalize_key]
    simp only [if_neg (by omega : ¬ 32 ≤ (utf8Encode raw).length)]
    rw [List.take_append_eq_append_take,
      List.take_of_length_le (by omega), List.take_replicate]
    congr 2
    rw [inf_eq_min]
    omega

/-- Witness for the amended C10: the one-byte secret `"k"` yields the 32-byte
key `"k"`'s byte followed by 31 ASCII `'0'` bytes. -/
theorem C10_key_normalization_witness :
    (normalize_key "k").length = 32
    ∧ ((utf8Encode "k").length < 32 ∧
        normalize_key "k" =
          utf8Encode "k" ++ List.replicate (32 - (utf8Encode "k").length) 48) :=
  ⟨(C10_key_normalization "k").1,
    ⟨by decide, (C10_key_normalization "k").2.2 (by decide)⟩⟩

end HMS
